import Mathlib

/-!
# Pulse cooperative scheduler — shallow embedding and verification

This file embeds the Pulse scheduler kernel (`pulse.h`) in Lean 4 and proves
properties of its operations: `pulse_init`, `pulse_add_task`, `pulse_tick_isr`,
`pulse_poll`, `pulse_tick_period_ms`.

Modelling conventions:
* machine integers are `Nat` with explicit `% 2 ^ 32` where overflow matters
  (`elapsed_ticks` is a `uint32`; the ready mask is a `uint64` whose bits are
  only ever set at positions below the task capacity);
* the task-callable function pointer (`pulse_tick_f`) is `Option (Int → Int)`,
  `none` standing for a NULL pointer;
* the fixed `tasks[PULSE_MAX_TASKS]` array is a total function `Nat → PulseTask`
  (the C code only ever indexes it below the capacity);
* the compile-time configuration macros (`PULSE_MAX_TASKS`,
  `PULSE_CFG_NULL_TICK_GUARD`, `PULSE_CFG_RUN_IMMEDIATELY`,
  `PULSE_CFG_SATURATE_ELAPSED`) become a `PulseConfig` record; the `#error`
  compile-time guards of the source (`1 ≤ PULSE_MAX_TASKS ≤ 64`) become proof
  fields of that record;
* the scheduler is single-threaded in this model: `pulse_tick_isr` and
  `pulse_poll` are atomic steps, which is exactly the semantics the source's
  critical sections are there to guarantee.
-/

/-- `0xFFFFFFFFu`, the saturation bound used by `pulse_tick_isr`. -/
def UINT32_MAX : Nat := 4294967295

/-- `UINT64_MAX`, i.e. the all-ones value of the 64-bit `ready_mask` word;
`~x` on a `uint64` is modelled as `UINT64_MAX ^^^ x`. -/
def UINT64_MAX : Nat := 18446744073709551615

/-- Compile-time configuration of the kernel (the `PULSE_MAX_TASKS` and
`PULSE_CFG_*` macros).  The two proof fields are the `#error` guards the
source enforces at compile time. -/
structure PulseConfig where
  maxTasks : Nat
  maxTasks_pos : 1 ≤ maxTasks
  maxTasks_le : maxTasks ≤ 64
  nullTickGuard : Bool
  runImmediately : Bool
  saturateElapsed : Bool

/-- `pulse_task_t`: one task descriptor. -/
structure PulseTask where
  running : Nat
  state : Int
  period_ticks : Nat
  elapsed_ticks : Nat
  tick : Option (Int → Int)

/-- `pulse_kernel_t`: the kernel state. -/
structure PulseKernel where
  tasks : Nat → PulseTask
  task_count : Nat
  ready_mask : Nat
  started : Nat
  tick_ms : Nat

/-- Pointwise update of the task array at index `i`. -/
def updTask (ts : Nat → PulseTask) (i : Nat) (t : PulseTask) : Nat → PulseTask :=
  fun j => if j = i then t else ts j

/-- `pulse_task_bit`: `(uint64)1u << id`.  All call sites pass `id < maxTasks ≤ 64`,
for which the shift is exact: `1 <<< id = 2 ^ id`. -/
def pulse_task_bit (id : Nat) : Nat := 1 <<< id

/-- The scan loop of `pulse_find_lowest_set_bit`, starting at index `i` with
`r` iterations remaining (the C loop runs `i = 0 .. PULSE_MAX_TASKS - 1`). -/
def pulse_find_lowest_from (mask i : Nat) : Nat → Option Nat
  | 0 => none
  | r + 1 =>
    if mask &&& pulse_task_bit i ≠ 0 then some i
    else pulse_find_lowest_from mask (i + 1) r

/-- `pulse_find_lowest_set_bit`: index of the lowest set bit at a position
below `PULSE_MAX_TASKS`, or `none` (the C function returns `-1`). -/
def pulse_find_lowest_set_bit (cfg : PulseConfig) (mask : Nat) : Option Nat :=
  pulse_find_lowest_from mask 0 cfg.maxTasks

/-- The all-zero task descriptor that `pulse_init` writes into every slot. -/
def pulse_zero_task : PulseTask :=
  { running := 0, state := 0, period_ticks := 0, elapsed_ticks := 0, tick := none }

/-- `pulse_init`: clamps `tick_ms` to a minimum of 1, then clears the registry,
the ready mask and the started flag. -/
def pulse_init (_cfg : PulseConfig) (tick_ms : Nat) : PulseKernel :=
  { tasks := fun _ => pulse_zero_task
    task_count := 0
    ready_mask := 0
    started := 0
    tick_ms := if tick_ms = 0 then 1 else tick_ms }

/-- `pulse_add_task`: validates period, callable and capacity (in that order),
then appends a descriptor at index `task_count`.  Returns the status code
(`0`, `-1`, `-2` or `-3`) paired with the new kernel state. -/
def pulse_add_task (cfg : PulseConfig) (init_state : Int) (period_ticks : Nat)
    (tick : Option (Int → Int)) (k : PulseKernel) : Int × PulseKernel :=
  if period_ticks = 0 then (-1, k)
  else if cfg.nullTickGuard && tick.isNone then (-2, k)
  else if cfg.maxTasks ≤ k.task_count then (-3, k)
  else
    let idx := k.task_count
    let newTask : PulseTask :=
      { running := 0
        state := init_state
        period_ticks := period_ticks
        elapsed_ticks := if cfg.runImmediately then period_ticks else 0
        tick := tick }
    let mask' :=
      if cfg.runImmediately then k.ready_mask ||| pulse_task_bit idx else k.ready_mask
    (0, { k with tasks := updTask k.tasks idx newTask
                 ready_mask := mask'
                 task_count := idx + 1 })

/-- `pulse_is_started`. -/
def pulse_is_started (k : PulseKernel) : Nat := k.started

/-- `pulse_tick_period_ms`. -/
def pulse_tick_period_ms (k : PulseKernel) : Nat := k.tick_ms

/-- The `elapsed_ticks` increment of one loop iteration of `pulse_tick_isr`:
saturating at `UINT32_MAX` or wrapping as a `uint32`, per configuration. -/
def pulse_tick_task (cfg : PulseConfig) (t : PulseTask) : PulseTask :=
  if cfg.saturateElapsed then
    if t.elapsed_ticks < UINT32_MAX then { t with elapsed_ticks := t.elapsed_ticks + 1 } else t
  else
    { t with elapsed_ticks := (t.elapsed_ticks + 1) % 2 ^ 32 }

/-- The ready test of `pulse_tick_isr` after task `t`'s counter was bumped:
`elapsed_ticks >= period_ticks` and the task is not running. -/
def pulse_ready_after (cfg : PulseConfig) (t : PulseTask) : Prop :=
  (pulse_tick_task cfg t).period_ticks ≤ (pulse_tick_task cfg t).elapsed_ticks ∧
    (pulse_tick_task cfg t).running = 0

instance (cfg : PulseConfig) (t : PulseTask) : Decidable (pulse_ready_after cfg t) := by
  unfold pulse_ready_after; infer_instance

/-- One loop iteration of `pulse_tick_isr` for task index `i`: bump
`elapsed_ticks`, then set the ready bit when `elapsed_ticks >= period_ticks`
and the task is not running. -/
def pulse_tick_step (cfg : PulseConfig) (k : PulseKernel) (i : Nat) : PulseKernel :=
  { k with tasks := updTask k.tasks i (pulse_tick_task cfg (k.tasks i))
           ready_mask := if pulse_ready_after cfg (k.tasks i)
                         then k.ready_mask ||| pulse_task_bit i else k.ready_mask }

/-- The loop of `pulse_tick_isr` over indices `0 .. n - 1`, in ascending order. -/
def pulse_tick_loop (cfg : PulseConfig) : Nat → PulseKernel → PulseKernel
  | 0, k => k
  | n + 1, k => pulse_tick_step cfg (pulse_tick_loop cfg n k) n

/-- `pulse_tick_isr`: bookkeeping for one timer tick over every registered task. -/
def pulse_tick_isr (cfg : PulseConfig) (k : PulseKernel) : PulseKernel :=
  pulse_tick_loop cfg k.task_count k

/-- The dispatch loop of `pulse_poll`, returning the final kernel state and the
list of dispatched task ids in dispatch order.  Each iteration clears the
lowest ready bit, marks the task running with `elapsed_ticks = 0`, invokes the
callable (a NULL callable is skipped when the null guard is on; calling it with
the guard off would be undefined behaviour in C and is modelled as a no-op),
stores the returned state and clears `running`.  The loop exits when no bit
below the capacity is set.  `fuel` is a termination bound only: clearing a set
bit strictly decreases the mask, so any `fuel ≥ ready_mask` yields the fixpoint
of the C `for (;;)` loop (`pulse_poll_go_fuel_irrel` below). -/
def pulse_poll_dispatch_one (_cfg : PulseConfig) (k : PulseKernel) (id : Nat) : PulseKernel :=
  let t := k.tasks id
  let t1 : PulseTask := { t with running := 1, elapsed_ticks := 0 }
  let k1 : PulseKernel :=
    { k with ready_mask := k.ready_mask &&& (UINT64_MAX ^^^ pulse_task_bit id)
             tasks := updTask k.tasks id t1 }
  let newState : Int :=
    match t1.tick with
    | some f => f t1.state
    | none => t1.state
  { k1 with tasks := updTask k1.tasks id { t1 with state := newState, running := 0 } }

def pulse_poll_go (cfg : PulseConfig) : Nat → PulseKernel → PulseKernel × List Nat
  | 0, k => (k, [])
  | fuel + 1, k =>
    match pulse_find_lowest_set_bit cfg k.ready_mask with
    | none => (k, [])
    | some id =>
      let res := pulse_poll_go cfg fuel (pulse_poll_dispatch_one cfg k id)
      (res.1, id :: res.2)

/-- `pulse_poll`: run every task that is currently ready, in ascending-id
order.  Also returns the list of dispatched ids (the observable call trace). -/
def pulse_poll (cfg : PulseConfig) (k : PulseKernel) : PulseKernel × List Nat :=
  pulse_poll_go cfg k.ready_mask k

/-- The task descriptor after `pulse_poll` has dispatched it: `elapsed_ticks`
reset to zero, state replaced by the callable's return value, `running` back
to zero. -/
def pulse_dispatch (t : PulseTask) : PulseTask :=
  { t with running := 0
           elapsed_ticks := 0
           state := match t.tick with | some f => f t.state | none => t.state }

/-- The kernel operations a client can perform after initialization. -/
inductive PulseOp where
  | add (st : Int) (period : Nat) (tick : Option (Int → Int))
  | tick
  | poll

/-- Apply one operation to a kernel state. -/
def pulse_apply (cfg : PulseConfig) (k : PulseKernel) : PulseOp → PulseKernel
  | .add st p f => (pulse_add_task cfg st p f k).2
  | .tick => pulse_tick_isr cfg k
  | .poll => (pulse_poll cfg k).1

/-- Run a sequence of operations, first one first. -/
def pulse_run (cfg : PulseConfig) (k : PulseKernel) (ops : List PulseOp) : PulseKernel :=
  ops.foldl (pulse_apply cfg) k

/-- An operation is well formed when its arguments fit the C types: the period
argument of `pulse_add_task` is a `uint32`. -/
def PulseOp.argsWF : PulseOp → Prop
  | .add _ p _ => p < 2 ^ 32
  | _ => True

/-- Contribution of one operation to the tick count. -/
def PulseOp.tickWeight : PulseOp → Nat
  | .tick => 1
  | _ => 0

/-- Number of `tick` operations in a sequence. -/
def countTicks : List PulseOp → Nat
  | [] => 0
  | op :: rest => op.tickWeight + countTicks rest

/-- The test harness's `drive_ticks` loop: starting at tick number `t`, do
`n` rounds of `pulse_tick_isr` followed by `pulse_poll`, logging each dispatch
as a `(tick number, task id)` pair. -/
def pulse_drive_from (cfg : PulseConfig) (t : Nat) : Nat → PulseKernel → PulseKernel × List (Nat × Nat)
  | 0, k => (k, [])
  | n + 1, k =>
    let k1 := pulse_tick_isr cfg k
    let pr := pulse_poll cfg k1
    let rest := pulse_drive_from cfg (t + 1) n pr.1
    (rest.1, pr.2.map (fun i => (t, i)) ++ rest.2)

/-- `drive_ticks(n)`: tick numbers start at 1, as in the hosted tests. -/
def pulse_drive (cfg : PulseConfig) (n : Nat) (k : PulseKernel) : PulseKernel × List (Nat × Nat) :=
  pulse_drive_from cfg 1 n k

/-- The default configuration of `pulse.h`: capacity 16, null guard on,
immediate-ready on, saturating elapsed counters. -/
def pulseCfgDefault : PulseConfig :=
  { maxTasks := 16
    maxTasks_pos := by decide
    maxTasks_le := by decide
    nullTickGuard := true
    runImmediately := true
    saturateElapsed := true }

/-- The default configuration with `PULSE_CFG_SATURATE_ELAPSED = 0`
(wrapping elapsed counters). -/
def pulseCfgWrap : PulseConfig :=
  { pulseCfgDefault with saturateElapsed := false }

/-- The default configuration with `PULSE_CFG_RUN_IMMEDIATELY = 0`
(deferred first release). -/
def pulseCfgDeferred : PulseConfig :=
  { pulseCfgDefault with runImmediately := false }

/-- Invariant of every kernel state reachable from `pulse_init` by
well-formed operations: the count fits the capacity, registered periods are
positive `uint32` values, no task is left running between operations, ready
bits only point at registered tasks and (under the saturating policy) at
tasks whose elapsed counter has reached their period. -/
def PulseInv (cfg : PulseConfig) (k : PulseKernel) : Prop :=
  k.task_count ≤ cfg.maxTasks ∧
  (∀ i, i < k.task_count →
    0 < (k.tasks i).period_ticks ∧ (k.tasks i).period_ticks < 2 ^ 32) ∧
  (∀ i, (k.tasks i).running = 0) ∧
  (∀ i, k.ready_mask.testBit i = true → i < k.task_count) ∧
  (cfg.saturateElapsed = true →
    ∀ i, k.ready_mask.testBit i = true →
      (k.tasks i).period_ticks ≤ (k.tasks i).elapsed_ticks)

/-- A concrete kernel used to exercise `pulse_poll`: three registered tasks,
tasks 0 and 2 ready (mask `0b101`), each with a distinct callable. -/
def pulseC2K : PulseKernel :=
  { tasks := fun j =>
      if j = 0 then
        { running := 0, state := 10, period_ticks := 3, elapsed_ticks := 3,
          tick := some fun s => s + 1 }
      else if j = 2 then
        { running := 0, state := 20, period_ticks := 4, elapsed_ticks := 5,
          tick := some fun s => s * 2 }
      else pulse_zero_task
    task_count := 3
    ready_mask := 5
    started := 0
    tick_ms := 1 }

/-- The kernel after registering one period-2 task (immediate-ready) in a
fresh default-configuration kernel. -/
def pulseC6K : PulseKernel :=
  (pulse_add_task pulseCfgDefault 0 2 (some fun s => s) (pulse_init pulseCfgDefault 1)).2

/-- A concrete kernel with one registered task whose elapsed counter sits at
`UINT32_MAX`. -/
def pulseC8K : PulseKernel :=
  { tasks := fun _ =>
      { running := 0, state := 0, period_ticks := 5, elapsed_ticks := UINT32_MAX,
        tick := some fun s => s }
    task_count := 1
    ready_mask := 1
    started := 0
    tick_ms := 1 }

/-- The kernel after registering one period-2 task in a fresh kernel built
with the wrapping (non-saturating) configuration. -/
def pulseC3K1 : PulseKernel :=
  (pulse_add_task pulseCfgWrap 0 2 (some fun s => s) (pulse_init pulseCfgWrap 1)).2

/-- Register one period-2 task, then tick `2 ^ 32 - 2` times without polling:
under the wrapping policy the elapsed counter comes back around to 0. -/
def pulseC3CexOps : List PulseOp :=
  PulseOp.add 0 2 (some fun s => s) :: List.replicate (2 ^ 32 - 2) PulseOp.tick

/-! ## Bitmask lemmas -/

theorem pulse_task_bit_eq (id : Nat) : pulse_task_bit id = 2 ^ id := by
  rw [pulse_task_bit, Nat.one_shiftLeft]

theorem pulse_and_task_bit (m i : Nat) :
    (m &&& pulse_task_bit i ≠ 0) ↔ m.testBit i = true := by
  rw [pulse_task_bit_eq]
  constructor
  · intro h
    by_contra hb
    rw [Bool.not_eq_true] at hb
    apply h
    apply Nat.eq_of_testBit_eq
    intro j
    rw [Nat.zero_testBit, Nat.testBit_and, Nat.testBit_two_pow]
    rcases eq_or_ne i j with rfl | hne
    · simp [hb]
    · simp [hne]
  · intro h hz
    have hb := congrArg (fun x => x.testBit i) hz
    simp only [Nat.testBit_and, Nat.testBit_two_pow, Nat.zero_testBit] at hb
    simp [h] at hb

theorem pulse_and_task_bit_eq_zero (m i : Nat) :
    (m &&& pulse_task_bit i = 0) ↔ m.testBit i = false := by
  constructor
  · intro h
    by_contra hb
    rw [Bool.not_eq_false] at hb
    exact (pulse_and_task_bit m i).mpr hb h
  · intro h
    by_contra hz
    rw [(pulse_and_task_bit m i).mp hz] at h
    simp at h

theorem pulse_u64_eq : UINT64_MAX = 2 ^ 64 - 1 := by decide

theorem pulse_clear_testBit (m : Nat) {id : Nat} (hid : id < 64) (j : Nat) :
    (m &&& (UINT64_MAX ^^^ pulse_task_bit id)).testBit j =
      (m.testBit j && !decide (j = id) && decide (j < 64)) := by
  rw [pulse_task_bit_eq, pulse_u64_eq, Nat.testBit_and, Nat.testBit_xor,
    Nat.testBit_two_pow_sub_one, Nat.testBit_two_pow]
  rcases Nat.lt_or_ge j 64 with hj | hj
  · rcases eq_or_ne j id with rfl | hne
    · simp [hj]
    · simp [hj, hne, Ne.symm hne]
  · have hne : ¬ (id = j) := by omega
    have hj' : ¬ (j < 64) := by omega
    simp [hne, hj']

theorem pulse_clear_lt {m id : Nat} (h : m.testBit id = true) (hid : id < 64) :
    m &&& (UINT64_MAX ^^^ pulse_task_bit id) < m := by
  refine Nat.lt_of_le_of_ne Nat.and_le_left (fun he => ?_)
  have hb := pulse_clear_testBit m hid id
  rw [he, h] at hb
  simp at hb

/-! ## `pulse_find_lowest_set_bit` characterization -/

theorem pulse_find_from_none {mask i r : Nat}
    (h : pulse_find_lowest_from mask i r = none) :
    ∀ j, i ≤ j → j < i + r → mask.testBit j = false := by
  induction r generalizing i with
  | zero => intro j h1 h2; omega
  | succ r ih =>
    rw [pulse_find_lowest_from] at h
    split at h
    · exact absurd h (by simp)
    · rename_i hcond
      intro j h1 h2
      rcases Nat.eq_or_lt_of_le h1 with rfl | hlt
      · exact (pulse_and_task_bit_eq_zero mask _).mp (not_ne_iff.mp hcond)
      · exact ih h j hlt (by omega)

theorem pulse_find_from_some {mask i r id : Nat}
    (h : pulse_find_lowest_from mask i r = some id) :
    i ≤ id ∧ id < i + r ∧ mask.testBit id = true ∧
      ∀ j, i ≤ j → j < id → mask.testBit j = false := by
  induction r generalizing i with
  | zero => exact absurd h (by simp [pulse_find_lowest_from])
  | succ r ih =>
    rw [pulse_find_lowest_from] at h
    split at h
    · rename_i hcond
      cases h
      exact ⟨Nat.le_refl _, by omega, (pulse_and_task_bit mask id).mp hcond,
        fun j h1 h2 => by omega⟩
    · rename_i hcond
      obtain ⟨h1, h2, h3, h4⟩ := ih h
      refine ⟨by omega, by omega, h3, fun j hj1 hj2 => ?_⟩
      rcases Nat.eq_or_lt_of_le hj1 with rfl | hlt
      · exact (pulse_and_task_bit_eq_zero mask _).mp (not_ne_iff.mp hcond)
      · exact h4 j hlt hj2

theorem pulse_find_none {cfg : PulseConfig} {mask : Nat}
    (h : pulse_find_lowest_set_bit cfg mask = none) :
    ∀ j, j < cfg.maxTasks → mask.testBit j = false := by
  intro j hj
  exact pulse_find_from_none h j (Nat.zero_le j) (by omega)

theorem pulse_find_some {cfg : PulseConfig} {mask id : Nat}
    (h : pulse_find_lowest_set_bit cfg mask = some id) :
    id < cfg.maxTasks ∧ mask.testBit id = true ∧
      ∀ j, j < id → mask.testBit j = false := by
  obtain ⟨h1, h2, h3, h4⟩ := pulse_find_from_some h
  exact ⟨by omega, h3, fun j hj => h4 j (Nat.zero_le j) hj⟩

theorem pulse_find_zero (cfg : PulseConfig) : pulse_find_lowest_set_bit cfg 0 = none := by
  cases h : pulse_find_lowest_set_bit cfg 0 with
  | none => rfl
  | some id =>
    have := (pulse_find_some h).2.1
    rw [Nat.zero_testBit] at this
    exact absurd this Bool.false_ne_true

/-! ## `pulse_tick_isr` characterization -/

theorem pulse_tick_step_fields (cfg : PulseConfig) (k : PulseKernel) (i : Nat) :
    (pulse_tick_step cfg k i).task_count = k.task_count ∧
      (pulse_tick_step cfg k i).started = k.started ∧
      (pulse_tick_step cfg k i).tick_ms = k.tick_ms := ⟨rfl, rfl, rfl⟩

theorem pulse_tick_step_tasks (cfg : PulseConfig) (k : PulseKernel) (i j : Nat) :
    (pulse_tick_step cfg k i).tasks j =
      if j = i then pulse_tick_task cfg (k.tasks i) else k.tasks j := rfl

theorem pulse_tick_step_mask (cfg : PulseConfig) (k : PulseKernel) (i : Nat) :
    (pulse_tick_step cfg k i).ready_mask =
      if pulse_ready_after cfg (k.tasks i)
      then k.ready_mask ||| pulse_task_bit i else k.ready_mask := rfl

theorem pulse_tick_loop_fields (cfg : PulseConfig) (n : Nat) (k : PulseKernel) :
    (pulse_tick_loop cfg n k).task_count = k.task_count ∧
      (pulse_tick_loop cfg n k).started = k.started ∧
      (pulse_tick_loop cfg n k).tick_ms = k.tick_ms := by
  induction n with
  | zero => exact ⟨rfl, rfl, rfl⟩
  | succ n ih => rw [pulse_tick_loop]; exact ih

theorem pulse_tick_loop_tasks (cfg : PulseConfig) (n : Nat) (k : PulseKernel) (j : Nat) :
    (pulse_tick_loop cfg n k).tasks j =
      if j < n then pulse_tick_task cfg (k.tasks j) else k.tasks j := by
  induction n with
  | zero => simp [pulse_tick_loop]
  | succ n ih =>
    rw [pulse_tick_loop, pulse_tick_step_tasks]
    rcases eq_or_ne j n with rfl | hne
    · have hn : ¬ (j < j) := by omega
      rw [ih, if_pos rfl, if_neg hn, if_pos (by omega)]
    · rw [if_neg hne, ih]
      rcases Nat.lt_or_ge j n with hj | hj
      · rw [if_pos hj, if_pos (by omega)]
      · rw [if_neg (by omega), if_neg (by omega)]

theorem pulse_tick_loop_mask (cfg : PulseConfig) (n : Nat) (k : PulseKernel) (j : Nat) :
    (pulse_tick_loop cfg n k).ready_mask.testBit j =
      (k.ready_mask.testBit j ||
        (decide (j < n) && decide (pulse_ready_after cfg (k.tasks j)))) := by
  induction n with
  | zero => simp [pulse_tick_loop]
  | succ n ih =>
    rw [pulse_tick_loop, pulse_tick_step_mask]
    have htn : (pulse_tick_loop cfg n k).tasks n = k.tasks n := by
      rw [pulse_tick_loop_tasks, if_neg (by omega)]
    rw [htn]
    by_cases hc : pulse_ready_after cfg (k.tasks n)
    · rw [if_pos hc, Nat.testBit_or, pulse_task_bit_eq, Nat.testBit_two_pow, ih]
      rcases eq_or_ne j n with rfl | hne
      · simp [hc]
      · have h1 : decide (n = j) = false := by simp [Ne.symm hne]
        have h2 : decide (j < n + 1) = decide (j < n) := by
          rcases Nat.lt_or_ge j n with hj | hj
          · simp [hj, Nat.lt_succ_of_lt hj]
          · have : ¬ (j < n + 1) := by omega
            simp [Nat.not_lt.mpr hj, this]
        rw [h1, h2, Bool.or_false]
    · rw [if_neg hc, ih]
      rcases eq_or_ne j n with rfl | hne
      · simp [hc]
      · have h2 : decide (j < n + 1) = decide (j < n) := by
          rcases Nat.lt_or_ge j n with hj | hj
          · simp [hj, Nat.lt_succ_of_lt hj]
          · have : ¬ (j < n + 1) := by omega
            simp [Nat.not_lt.mpr hj, this]
        rw [h2]

theorem pulse_tick_isr_count (cfg : PulseConfig) (k : PulseKernel) :
    (pulse_tick_isr cfg k).task_count = k.task_count :=
  (pulse_tick_loop_fields cfg k.task_count k).1

theorem pulse_tick_isr_tasks (cfg : PulseConfig) (k : PulseKernel) (j : Nat) :
    (pulse_tick_isr cfg k).tasks j =
      if j < k.task_count then pulse_tick_task cfg (k.tasks j) else k.tasks j :=
  pulse_tick_loop_tasks cfg k.task_count k j

theorem pulse_tick_isr_mask (cfg : PulseConfig) (k : PulseKernel) (j : Nat) :
    (pulse_tick_isr cfg k).ready_mask.testBit j =
      (k.ready_mask.testBit j ||
        (decide (j < k.task_count) && decide (pulse_ready_after cfg (k.tasks j)))) :=
  pulse_tick_loop_mask cfg k.task_count k j

/-- `pulse_tick_task` changes only `elapsed_ticks`, by at most one. -/
theorem pulse_tick_task_fields (cfg : PulseConfig) (t : PulseTask) :
    (pulse_tick_task cfg t).running = t.running ∧
      (pulse_tick_task cfg t).state = t.state ∧
      (pulse_tick_task cfg t).period_ticks = t.period_ticks ∧
      (pulse_tick_task cfg t).tick = t.tick ∧
      (pulse_tick_task cfg t).elapsed_ticks ≤ t.elapsed_ticks + 1 := by
  unfold pulse_tick_task
  split
  · split
    · exact ⟨rfl, rfl, rfl, rfl, Nat.le_refl _⟩
    · exact ⟨rfl, rfl, rfl, rfl, Nat.le_succ _⟩
  · exact ⟨rfl, rfl, rfl, rfl, Nat.mod_le _ _⟩

/-- Under the saturating policy the bumped counter never decreases. -/
theorem pulse_tick_task_sat_mono (cfg : PulseConfig) (t : PulseTask)
    (hs : cfg.saturateElapsed = true) :
    t.elapsed_ticks ≤ (pulse_tick_task cfg t).elapsed_ticks := by
  unfold pulse_tick_task
  rw [hs]
  simp only [if_true]
  split
  · exact Nat.le_succ _
  · exact Nat.le_refl _

/-- Under the saturating policy the bumped counter stays at `UINT32_MAX`. -/
theorem pulse_tick_task_sat_max (cfg : PulseConfig) (t : PulseTask)
    (hs : cfg.saturateElapsed = true) (hm : t.elapsed_ticks = UINT32_MAX) :
    (pulse_tick_task cfg t).elapsed_ticks = UINT32_MAX := by
  unfold pulse_tick_task
  rw [hs]
  simp only [if_true]
  rw [if_neg (by omega)]
  exact hm

/-! ## `pulse_poll` characterization -/

theorem pulse_dispatch_one_mask (cfg : PulseConfig) (k : PulseKernel) (id : Nat) :
    (pulse_poll_dispatch_one cfg k id).ready_mask =
      k.ready_mask &&& (UINT64_MAX ^^^ pulse_task_bit id) := rfl

theorem pulse_dispatch_one_fields (cfg : PulseConfig) (k : PulseKernel) (id : Nat) :
    (pulse_poll_dispatch_one cfg k id).task_count = k.task_count ∧
      (pulse_poll_dispatch_one cfg k id).started = k.started ∧
      (pulse_poll_dispatch_one cfg k id).tick_ms = k.tick_ms := ⟨rfl, rfl, rfl⟩

theorem pulse_dispatch_one_tasks (cfg : PulseConfig) (k : PulseKernel) (id j : Nat) :
    (pulse_poll_dispatch_one cfg k id).tasks j =
      if j = id then pulse_dispatch (k.tasks id) else k.tasks j := by
  unfold pulse_poll_dispatch_one pulse_dispatch updTask
  rcases eq_or_ne j id with rfl | hne
  · simp
  · simp [hne]

theorem pulse_poll_go_succ_none (cfg : PulseConfig) (fuel : Nat) (k : PulseKernel)
    (h : pulse_find_lowest_set_bit cfg k.ready_mask = none) :
    pulse_poll_go cfg (fuel + 1) k = (k, []) := by
  rw [pulse_poll_go, h]

theorem pulse_poll_go_succ_some (cfg : PulseConfig) (fuel : Nat) (k : PulseKernel) (id : Nat)
    (h : pulse_find_lowest_set_bit cfg k.ready_mask = some id) :
    pulse_poll_go cfg (fuel + 1) k =
      ((pulse_poll_go cfg fuel (pulse_poll_dispatch_one cfg k id)).1,
        id :: (pulse_poll_go cfg fuel (pulse_poll_dispatch_one cfg k id)).2) := by
  rw [pulse_poll_go, h]

theorem pulse_poll_go_fuel_irrel (cfg : PulseConfig) :
    ∀ f1 f2 (k : PulseKernel), k.ready_mask ≤ f1 → k.ready_mask ≤ f2 →
      pulse_poll_go cfg f1 k = pulse_poll_go cfg f2 k := by
  intro f1
  induction f1 with
  | zero =>
    intro f2 k h1 h2
    have hz : k.ready_mask = 0 := Nat.le_zero.mp h1
    cases f2 with
    | zero => rfl
    | succ g =>
      rw [pulse_poll_go_succ_none cfg g k (by rw [hz]; exact pulse_find_zero cfg)]
      rfl
  | succ f ih =>
    intro f2 k h1 h2
    cases f2 with
    | zero =>
      have hz : k.ready_mask = 0 := Nat.le_zero.mp h2
      rw [pulse_poll_go_succ_none cfg f k (by rw [hz]; exact pulse_find_zero cfg)]
      rfl
    | succ g =>
      cases hfind : pulse_find_lowest_set_bit cfg k.ready_mask with
      | none => rw [pulse_poll_go_succ_none cfg f k hfind, pulse_poll_go_succ_none cfg g k hfind]
      | some id =>
        obtain ⟨hlt, hbit, _⟩ := pulse_find_some hfind
        have hid64 : id < 64 := by have := cfg.maxTasks_le; omega
        have hdec : (pulse_poll_dispatch_one cfg k id).ready_mask < k.ready_mask := by
          rw [pulse_dispatch_one_mask]
          exact pulse_clear_lt hbit hid64
        rw [pulse_poll_go_succ_some cfg f k id hfind, pulse_poll_go_succ_some cfg g k id hfind,
          ih g (pulse_poll_dispatch_one cfg k id) (by omega) (by omega)]

theorem pulse_poll_go_count (cfg : PulseConfig) :
    ∀ f (k : PulseKernel), (pulse_poll_go cfg f k).1.task_count = k.task_count ∧
      (pulse_poll_go cfg f k).1.started = k.started ∧
      (pulse_poll_go cfg f k).1.tick_ms = k.tick_ms := by
  intro f
  induction f with
  | zero => exact fun k => ⟨rfl, rfl, rfl⟩
  | succ f ih =>
    intro k
    cases hfind : pulse_find_lowest_set_bit cfg k.ready_mask with
    | none => rw [pulse_poll_go_succ_none cfg f k hfind]; exact ⟨rfl, rfl, rfl⟩
    | some id =>
      rw [pulse_poll_go_succ_some cfg f k id hfind]
      exact ih (pulse_poll_dispatch_one cfg k id)

theorem pulse_poll_go_task_fields (cfg : PulseConfig) :
    ∀ f (k : PulseKernel) (i : Nat),
      ((pulse_poll_go cfg f k).1.tasks i).period_ticks = (k.tasks i).period_ticks ∧
      ((pulse_poll_go cfg f k).1.tasks i).tick = (k.tasks i).tick ∧
      ((pulse_poll_go cfg f k).1.tasks i).elapsed_ticks ≤ (k.tasks i).elapsed_ticks := by
  intro f
  induction f with
  | zero => exact fun k i => ⟨rfl, rfl, Nat.le_refl _⟩
  | succ f ih =>
    intro k i
    cases hfind : pulse_find_lowest_set_bit cfg k.ready_mask with
    | none => rw [pulse_poll_go_succ_none cfg f k hfind]; exact ⟨rfl, rfl, Nat.le_refl _⟩
    | some id =>
      rw [pulse_poll_go_succ_some cfg f k id hfind]
      obtain ⟨hp, ht, he⟩ := ih (pulse_poll_dispatch_one cfg k id) i
      rw [pulse_dispatch_one_tasks] at hp ht he
      rcases eq_or_ne i id with rfl | hne
      · rw [if_pos rfl] at hp ht he
        exact ⟨hp, ht, Nat.le_trans he (Nat.zero_le _)⟩
      · rw [if_neg hne] at hp ht he
        exact ⟨hp, ht, he⟩

theorem pulse_poll_go_mask_subset (cfg : PulseConfig) :
    ∀ f (k : PulseKernel) (j : Nat),
      ((pulse_poll_go cfg f k).1.ready_mask).testBit j = true →
        k.ready_mask.testBit j = true := by
  intro f
  induction f with
  | zero => exact fun k j h => h
  | succ f ih =>
    intro k j h
    cases hfind : pulse_find_lowest_set_bit cfg k.ready_mask with
    | none => rw [pulse_poll_go_succ_none cfg f k hfind] at h; exact h
    | some id =>
      rw [pulse_poll_go_succ_some cfg f k id hfind] at h
      have h2 := ih (pulse_poll_dispatch_one cfg k id) j h
      have hid64 : id < 64 := by
        have := (pulse_find_some hfind).1; have := cfg.maxTasks_le; omega
      rw [pulse_dispatch_one_mask, pulse_clear_testBit _ hid64] at h2
      exact (Bool.and_eq_true_iff.mp (Bool.and_eq_true_iff.mp h2).1).1

theorem pulse_poll_go_untouched (cfg : PulseConfig) :
    ∀ f (k : PulseKernel) (i : Nat), k.ready_mask.testBit i = false →
      (pulse_poll_go cfg f k).1.tasks i = k.tasks i := by
  intro f
  induction f with
  | zero => exact fun k i _ => rfl
  | succ f ih =>
    intro k i h
    cases hfind : pulse_find_lowest_set_bit cfg k.ready_mask with
    | none => rw [pulse_poll_go_succ_none cfg f k hfind]
    | some id =>
      rw [pulse_poll_go_succ_some cfg f k id hfind]
      obtain ⟨hlt, hbit, _⟩ := pulse_find_some hfind
      have hne : i ≠ id := by
        intro he; rw [he, hbit] at h; simp at h
      have hid64 : id < 64 := by have := cfg.maxTasks_le; omega
      have hbit2 : (pulse_poll_dispatch_one cfg k id).ready_mask.testBit i = false := by
        rw [pulse_dispatch_one_mask, pulse_clear_testBit _ hid64, h]
        rfl
      rw [ih (pulse_poll_dispatch_one cfg k id) i hbit2, pulse_dispatch_one_tasks,
        if_neg hne]

theorem pulse_poll_go_trace_mem (cfg : PulseConfig) :
    ∀ f (k : PulseKernel) (i : Nat), i ∈ (pulse_poll_go cfg f k).2 →
      k.ready_mask.testBit i = true ∧ i < cfg.maxTasks := by
  intro f
  induction f with
  | zero => intro k i h; simp [pulse_poll_go] at h
  | succ f ih =>
    intro k i h
    cases hfind : pulse_find_lowest_set_bit cfg k.ready_mask with
    | none => rw [pulse_poll_go_succ_none cfg f k hfind] at h; simp at h
    | some id =>
      rw [pulse_poll_go_succ_some cfg f k id hfind] at h
      obtain ⟨hlt, hbit, _⟩ := pulse_find_some hfind
      rcases List.mem_cons.mp h with rfl | hrest
      · exact ⟨hbit, hlt⟩
      · have hid64 : id < 64 := by have := cfg.maxTasks_le; omega
        obtain ⟨hb2, hm2⟩ := ih (pulse_poll_dispatch_one cfg k id) i hrest
        rw [pulse_dispatch_one_mask, pulse_clear_testBit _ hid64] at hb2
        exact ⟨(Bool.and_eq_true_iff.mp (Bool.and_eq_true_iff.mp hb2).1).1, hm2⟩

theorem pulse_poll_go_dispatched (cfg : PulseConfig) :
    ∀ f (k : PulseKernel) (i : Nat), i ∈ (pulse_poll_go cfg f k).2 →
      (pulse_poll_go cfg f k).1.tasks i = pulse_dispatch (k.tasks i) ∧
        ((pulse_poll_go cfg f k).1.ready_mask).testBit i = false := by
  intro f
  induction f with
  | zero => intro k i h; simp [pulse_poll_go] at h
  | succ f ih =>
    intro k i h
    cases hfind : pulse_find_lowest_set_bit cfg k.ready_mask with
    | none => rw [pulse_poll_go_succ_none cfg f k hfind] at h; simp at h
    | some id =>
      have hid64 : id < 64 := by
        have := (pulse_find_some hfind).1; have := cfg.maxTasks_le; omega
      rw [pulse_poll_go_succ_some cfg f k id hfind] at h ⊢
      rcases List.mem_cons.mp h with rfl | hrest
      · have hb2 : (pulse_poll_dispatch_one cfg k i).ready_mask.testBit i = false := by
          rw [pulse_dispatch_one_mask, pulse_clear_testBit _ hid64]
          simp
        constructor
        · rw [pulse_poll_go_untouched cfg f _ i hb2, pulse_dispatch_one_tasks, if_pos rfl]
        · cases hfin : ((pulse_poll_go cfg f (pulse_poll_dispatch_one cfg k i)).1.ready_mask).testBit i with
          | false => rfl
          | true => rw [pulse_poll_go_mask_subset cfg f _ i hfin] at hb2; exact hb2
      · obtain ⟨ht, hb⟩ := ih (pulse_poll_dispatch_one cfg k id) i hrest
        have hne : i ≠ id := by
          intro he
          obtain ⟨hb2, _⟩ := pulse_poll_go_trace_mem cfg f _ i hrest
          rw [he, pulse_dispatch_one_mask, pulse_clear_testBit _ hid64] at hb2
          simp at hb2
        rw [pulse_dispatch_one_tasks, if_neg hne] at ht
        exact ⟨ht, hb⟩

/-- If `p` holds at `id` and nowhere below it, filtering `range n` by `p`
yields `id` followed by the filter by `p` with position `id` knocked out. -/
theorem pulse_filter_range_cons {id : Nat} (p q : Nat → Bool) :
    ∀ n, id < n → p id = true → (∀ j, j < id → p j = false) →
      (∀ j, j < n → q j = (p j && !decide (j = id))) →
      (List.range n).filter p = id :: (List.range n).filter q := by
  intro n
  induction n with
  | zero => omega
  | succ n ih =>
    intro hid hp hlow hq
    rcases Nat.lt_or_ge id n with hidn | hidn
    · rw [List.range_succ, List.filter_append, List.filter_append,
        ih hidn hp hlow (fun j hj => hq j (by omega))]
      have hqn : q n = p n := by
        rw [hq n (by omega)]
        have : decide (n = id) = false := by simp; omega
        rw [this]
        simp
      rw [List.cons_append]
      congr 1
      rw [List.filter_cons, List.filter_cons, hqn]
      rfl
    · have hide : id = n := by omega
      subst hide
      rw [List.range_succ, List.filter_append, List.filter_append]
      have h1 : (List.range id).filter p = [] := by
        rw [List.filter_eq_nil_iff]
        intro a ha
        rw [hlow a (List.mem_range.mp ha)]
        simp
      have h2 : (List.range id).filter q = [] := by
        rw [List.filter_eq_nil_iff]
        intro a ha
        rw [hq a (by have := List.mem_range.mp ha; omega), hlow a (List.mem_range.mp ha)]
        simp
      have h3 : [id].filter p = [id] := by simp [hp]
      have h4 : [id].filter q = [] := by
        have : q id = false := by rw [hq id (by omega), decide_eq_true rfl]; simp
        simp [this]
      rw [h1, h2, h3, h4]
      rfl

theorem pulse_poll_go_trace (cfg : PulseConfig) :
    ∀ f (k : PulseKernel), k.ready_mask ≤ f →
      (∀ j, k.ready_mask.testBit j = true → j < cfg.maxTasks) →
      (pulse_poll_go cfg f k).2 =
        (List.range cfg.maxTasks).filter (fun j => k.ready_mask.testBit j) := by
  intro f
  induction f with
  | zero =>
    intro k hf _
    have hz : k.ready_mask = 0 := Nat.le_zero.mp hf
    rw [pulse_poll_go]
    rw [eq_comm, List.filter_eq_nil_iff]
    intro a _
    rw [hz, Nat.zero_testBit]
    simp
  | succ f ih =>
    intro k hf hm
    cases hfind : pulse_find_lowest_set_bit cfg k.ready_mask with
    | none =>
      rw [pulse_poll_go_succ_none cfg f k hfind]
      rw [eq_comm, List.filter_eq_nil_iff]
      intro a ha
      rw [pulse_find_none hfind a (List.mem_range.mp ha)]
      simp
    | some id =>
      obtain ⟨hlt, hbit, hlow⟩ := pulse_find_some hfind
      have hid64 : id < 64 := by have := cfg.maxTasks_le; omega
      have hdec : (pulse_poll_dispatch_one cfg k id).ready_mask < k.ready_mask := by
        rw [pulse_dispatch_one_mask]; exact pulse_clear_lt hbit hid64
      have hm2 : ∀ j, (pulse_poll_dispatch_one cfg k id).ready_mask.testBit j = true →
          j < cfg.maxTasks := by
        intro j hj
        rw [pulse_dispatch_one_mask, pulse_clear_testBit _ hid64] at hj
        exact hm j (Bool.and_eq_true_iff.mp (Bool.and_eq_true_iff.mp hj).1).1
      rw [pulse_poll_go_succ_some cfg f k id hfind]
      show id :: (pulse_poll_go cfg f (pulse_poll_dispatch_one cfg k id)).2 = _
      rw [ih (pulse_poll_dispatch_one cfg k id) (by omega) hm2]
      rw [pulse_filter_range_cons (fun j => k.ready_mask.testBit j)
        (fun j => (pulse_poll_dispatch_one cfg k id).ready_mask.testBit j)
        cfg.maxTasks hlt hbit hlow ?hq]
      case hq =>
        intro j hj
        dsimp only
        rw [pulse_dispatch_one_mask, pulse_clear_testBit _ hid64]
        have : decide (j < 64) = true := by
          have := cfg.maxTasks_le
          exact decide_eq_true (by omega)
        rw [this, Bool.and_true]

theorem pulse_poll_go_mask_zero (cfg : PulseConfig) :
    ∀ f (k : PulseKernel), k.ready_mask ≤ f →
      (∀ j, k.ready_mask.testBit j = true → j < cfg.maxTasks) →
      (pulse_poll_go cfg f k).1.ready_mask = 0 := by
  intro f
  induction f with
  | zero =>
    intro k hf _
    exact Nat.le_zero.mp hf
  | succ f ih =>
    intro k hf hm
    cases hfind : pulse_find_lowest_set_bit cfg k.ready_mask with
    | none =>
      rw [pulse_poll_go_succ_none cfg f k hfind]
      apply Nat.eq_of_testBit_eq
      intro j
      rw [Nat.zero_testBit]
      cases hb : k.ready_mask.testBit j with
      | false => rfl
      | true => rw [pulse_find_none hfind j (hm j hb)] at hb; exact hb.symm
    | some id =>
      obtain ⟨hlt, hbit, _⟩ := pulse_find_some hfind
      have hid64 : id < 64 := by have := cfg.maxTasks_le; omega
      have hdec : (pulse_poll_dispatch_one cfg k id).ready_mask < k.ready_mask := by
        rw [pulse_dispatch_one_mask]; exact pulse_clear_lt hbit hid64
      have hm2 : ∀ j, (pulse_poll_dispatch_one cfg k id).ready_mask.testBit j = true →
          j < cfg.maxTasks := by
        intro j hj
        rw [pulse_dispatch_one_mask, pulse_clear_testBit _ hid64] at hj
        exact hm j (Bool.and_eq_true_iff.mp (Bool.and_eq_true_iff.mp hj).1).1
      rw [pulse_poll_go_succ_some cfg f k id hfind]
      exact ih (pulse_poll_dispatch_one cfg k id) (by omega) hm2

theorem pulse_poll_count (cfg : PulseConfig) (k : PulseKernel) :
    (pulse_poll cfg k).1.task_count = k.task_count :=
  (pulse_poll_go_count cfg k.ready_mask k).1

theorem pulse_poll_task_fields (cfg : PulseConfig) (k : PulseKernel) (i : Nat) :
    ((pulse_poll cfg k).1.tasks i).period_ticks = (k.tasks i).period_ticks ∧
      ((pulse_poll cfg k).1.tasks i).tick = (k.tasks i).tick ∧
      ((pulse_poll cfg k).1.tasks i).elapsed_ticks ≤ (k.tasks i).elapsed_ticks :=
  pulse_poll_go_task_fields cfg k.ready_mask k i

theorem pulse_poll_mask_subset (cfg : PulseConfig) (k : PulseKernel) (j : Nat)
    (h : ((pulse_poll cfg k).1.ready_mask).testBit j = true) :
    k.ready_mask.testBit j = true :=
  pulse_poll_go_mask_subset cfg k.ready_mask k j h

theorem pulse_poll_untouched (cfg : PulseConfig) (k : PulseKernel) (i : Nat)
    (h : k.ready_mask.testBit i = false) :
    (pulse_poll cfg k).1.tasks i = k.tasks i :=
  pulse_poll_go_untouched cfg k.ready_mask k i h

theorem pulse_poll_trace_mem (cfg : PulseConfig) (k : PulseKernel) (i : Nat)
    (h : i ∈ (pulse_poll cfg k).2) :
    k.ready_mask.testBit i = true ∧ i < cfg.maxTasks :=
  pulse_poll_go_trace_mem cfg k.ready_mask k i h

theorem pulse_poll_dispatched (cfg : PulseConfig) (k : PulseKernel) (i : Nat)
    (h : i ∈ (pulse_poll cfg k).2) :
    (pulse_poll cfg k).1.tasks i = pulse_dispatch (k.tasks i) ∧
      ((pulse_poll cfg k).1.ready_mask).testBit i = false :=
  pulse_poll_go_dispatched cfg k.ready_mask k i h

theorem pulse_poll_trace (cfg : PulseConfig) (k : PulseKernel)
    (hm : ∀ j, k.ready_mask.testBit j = true → j < cfg.maxTasks) :
    (pulse_poll cfg k).2 =
      (List.range cfg.maxTasks).filter (fun j => k.ready_mask.testBit j) :=
  pulse_poll_go_trace cfg k.ready_mask k (Nat.le_refl _) hm

theorem pulse_poll_mask_zero (cfg : PulseConfig) (k : PulseKernel)
    (hm : ∀ j, k.ready_mask.testBit j = true → j < cfg.maxTasks) :
    (pulse_poll cfg k).1.ready_mask = 0 :=
  pulse_poll_go_mask_zero cfg k.ready_mask k (Nat.le_refl _) hm

/-! ## `pulse_add_task` characterization -/

theorem pulse_add_task_success (cfg : PulseConfig) (st : Int) (p : Nat)
    (f : Option (Int → Int)) (k : PulseKernel) (hp : p ≠ 0)
    (hf : cfg.nullTickGuard = true → f.isNone = false)
    (hc : k.task_count < cfg.maxTasks) :
    pulse_add_task cfg st p f k =
      (0, { k with
            tasks := updTask k.tasks k.task_count
              { running := 0, state := st, period_ticks := p,
                elapsed_ticks := if cfg.runImmediately then p else 0, tick := f }
            ready_mask := if cfg.runImmediately
                          then k.ready_mask ||| pulse_task_bit k.task_count
                          else k.ready_mask
            task_count := k.task_count + 1 }) := by
  unfold pulse_add_task
  rw [if_neg hp]
  have hguard : ¬ ((cfg.nullTickGuard && f.isNone) = true) := by
    cases hg : cfg.nullTickGuard with
    | false => simp
    | true => rw [hf hg]; simp
  rw [if_neg hguard, if_neg (by omega)]

theorem pulse_add_task_fail_period (cfg : PulseConfig) (st : Int)
    (f : Option (Int → Int)) (k : PulseKernel) :
    pulse_add_task cfg st 0 f k = (-1, k) := by
  unfold pulse_add_task
  rw [if_pos rfl]

theorem pulse_add_task_fail_null (cfg : PulseConfig) (st : Int) (p : Nat)
    (k : PulseKernel) (hp : p ≠ 0) (hg : cfg.nullTickGuard = true) :
    pulse_add_task cfg st p none k = (-2, k) := by
  unfold pulse_add_task
  rw [if_neg hp, if_pos (by rw [hg]; rfl)]

theorem pulse_add_task_fail_capacity (cfg : PulseConfig) (st : Int) (p : Nat)
    (f : Option (Int → Int)) (k : PulseKernel) (hp : p ≠ 0)
    (hf : cfg.nullTickGuard = true → f.isNone = false)
    (hc : cfg.maxTasks ≤ k.task_count) :
    pulse_add_task cfg st p f k = (-3, k) := by
  unfold pulse_add_task
  rw [if_neg hp]
  have hguard : ¬ ((cfg.nullTickGuard && f.isNone) = true) := by
    cases hg : cfg.nullTickGuard with
    | false => simp
    | true => rw [hf hg]; simp
  rw [if_neg hguard, if_pos hc]

/-! ## Operation sequences -/

theorem countTicks_cons (op : PulseOp) (rest : List PulseOp) :
    countTicks (op :: rest) = op.tickWeight + countTicks rest := rfl

theorem pulse_add_task_tasks_lt (cfg : PulseConfig) (st : Int) (p : Nat)
    (f : Option (Int → Int)) (k : PulseKernel) (i : Nat) (hi : i < k.task_count) :
    (pulse_add_task cfg st p f k).2.tasks i = k.tasks i := by
  unfold pulse_add_task
  split
  · rfl
  · split
    · rfl
    · split
      · rfl
      · show updTask k.tasks k.task_count _ i = k.tasks i
        simp only [updTask]
        rw [if_neg (by omega)]

theorem pulse_add_task_count_mono (cfg : PulseConfig) (st : Int) (p : Nat)
    (f : Option (Int → Int)) (k : PulseKernel) :
    k.task_count ≤ (pulse_add_task cfg st p f k).2.task_count := by
  unfold pulse_add_task
  split
  · exact Nat.le_refl _
  · split
    · exact Nat.le_refl _
    · split
      · exact Nat.le_refl _
      · exact Nat.le_succ _

theorem pulse_add_task_mask_lt (cfg : PulseConfig) (st : Int) (p : Nat)
    (f : Option (Int → Int)) (k : PulseKernel) (j : Nat) (hj : j < k.task_count) :
    (pulse_add_task cfg st p f k).2.ready_mask.testBit j = k.ready_mask.testBit j := by
  unfold pulse_add_task
  split
  · rfl
  · split
    · rfl
    · split
      · rfl
      · show (if cfg.runImmediately = true
              then k.ready_mask ||| pulse_task_bit k.task_count
              else k.ready_mask).testBit j = _
        split
        · rw [Nat.testBit_or, pulse_task_bit_eq, Nat.testBit_two_pow]
          have : decide (k.task_count = j) = false := by simp; omega
          rw [this, Bool.or_false]
        · rfl

theorem pulse_apply_count_mono (cfg : PulseConfig) (k : PulseKernel) (op : PulseOp) :
    k.task_count ≤ (pulse_apply cfg k op).task_count := by
  cases op with
  | add st p f => exact pulse_add_task_count_mono cfg st p f k
  | tick => exact Nat.le_of_eq (pulse_tick_isr_count cfg k).symm
  | poll => exact Nat.le_of_eq (pulse_poll_count cfg k).symm

theorem pulse_apply_task_bound (cfg : PulseConfig) (k : PulseKernel) (op : PulseOp)
    (i : Nat) (hi : i < k.task_count) :
    ((pulse_apply cfg k op).tasks i).period_ticks = (k.tasks i).period_ticks ∧
      ((pulse_apply cfg k op).tasks i).elapsed_ticks ≤
        (k.tasks i).elapsed_ticks + op.tickWeight := by
  cases op with
  | add st p f =>
    have ht : (pulse_apply cfg k (PulseOp.add st p f)).tasks i = k.tasks i :=
      pulse_add_task_tasks_lt cfg st p f k i hi
    rw [ht]
    exact ⟨rfl, Nat.le_add_right _ _⟩
  | tick =>
    have ht : (pulse_apply cfg k PulseOp.tick).tasks i = pulse_tick_task cfg (k.tasks i) := by
      show (pulse_tick_isr cfg k).tasks i = _
      rw [pulse_tick_isr_tasks, if_pos hi]
    rw [ht]
    exact ⟨(pulse_tick_task_fields cfg _).2.2.1, (pulse_tick_task_fields cfg _).2.2.2.2⟩
  | poll =>
    refine ⟨(pulse_poll_task_fields cfg k i).1, ?_⟩
    exact Nat.le_trans (pulse_poll_task_fields cfg k i).2.2 (Nat.le_add_right _ _)

theorem pulse_run_count_mono (cfg : PulseConfig) :
    ∀ ops (k : PulseKernel), k.task_count ≤ (pulse_run cfg k ops).task_count := by
  intro ops
  induction ops with
  | nil => exact fun k => Nat.le_refl _
  | cons op rest ih =>
    intro k
    exact Nat.le_trans (pulse_apply_count_mono cfg k op) (ih (pulse_apply cfg k op))

theorem pulse_run_period_eq (cfg : PulseConfig) :
    ∀ ops (k : PulseKernel) (i : Nat), i < k.task_count →
      ((pulse_run cfg k ops).tasks i).period_ticks = (k.tasks i).period_ticks := by
  intro ops
  induction ops with
  | nil => exact fun k i _ => rfl
  | cons op rest ih =>
    intro k i hi
    have hi2 : i < (pulse_apply cfg k op).task_count :=
      Nat.lt_of_lt_of_le hi (pulse_apply_count_mono cfg k op)
    rw [show pulse_run cfg k (op :: rest) = pulse_run cfg (pulse_apply cfg k op) rest from rfl,
      ih (pulse_apply cfg k op) i hi2, (pulse_apply_task_bound cfg k op i hi).1]

theorem pulse_run_elapsed_le (cfg : PulseConfig) :
    ∀ ops (k : PulseKernel) (i : Nat), i < k.task_count →
      ((pulse_run cfg k ops).tasks i).elapsed_ticks ≤
        (k.tasks i).elapsed_ticks + countTicks ops := by
  intro ops
  induction ops with
  | nil => exact fun k i _ => Nat.le_refl _
  | cons op rest ih =>
    intro k i hi
    have hi2 : i < (pulse_apply cfg k op).task_count :=
      Nat.lt_of_lt_of_le hi (pulse_apply_count_mono cfg k op)
    have h1 := ih (pulse_apply cfg k op) i hi2
    have h2 := (pulse_apply_task_bound cfg k op i hi).2
    rw [countTicks_cons]
    calc ((pulse_run cfg k (op :: rest)).tasks i).elapsed_ticks
        ≤ ((pulse_apply cfg k op).tasks i).elapsed_ticks + countTicks rest := h1
      _ ≤ (k.tasks i).elapsed_ticks + op.tickWeight + countTicks rest := by omega
      _ = (k.tasks i).elapsed_ticks + (op.tickWeight + countTicks rest) := by omega

theorem pulse_apply_bit_origin (cfg : PulseConfig) (k : PulseKernel) (op : PulseOp)
    (i : Nat) (hi : i < k.task_count)
    (hb : (pulse_apply cfg k op).ready_mask.testBit i = true) :
    k.ready_mask.testBit i = true ∨
      (k.tasks i).period_ticks ≤ (k.tasks i).elapsed_ticks + op.tickWeight := by
  cases op with
  | add st p f =>
    left
    rw [← pulse_add_task_mask_lt cfg st p f k i hi]
    exact hb
  | poll =>
    left
    exact pulse_poll_mask_subset cfg k i hb
  | tick =>
    have hb2 : (pulse_tick_isr cfg k).ready_mask.testBit i = true := hb
    rw [pulse_tick_isr_mask] at hb2
    rcases Bool.or_eq_true_iff.mp hb2 with hb3 | hb3
    · exact Or.inl hb3
    · right
      have hra := of_decide_eq_true (Bool.and_eq_true_iff.mp hb3).2
      have h1 := hra.1
      rw [(pulse_tick_task_fields cfg (k.tasks i)).2.2.1] at h1
      exact Nat.le_trans h1 (pulse_tick_task_fields cfg (k.tasks i)).2.2.2.2

theorem pulse_run_bit_origin (cfg : PulseConfig) :
    ∀ ops (k : PulseKernel) (i : Nat), i < k.task_count →
      ((pulse_run cfg k ops).ready_mask.testBit i = true) →
        k.ready_mask.testBit i = true ∨
          (k.tasks i).period_ticks ≤ (k.tasks i).elapsed_ticks + countTicks ops := by
  intro ops
  induction ops with
  | nil => exact fun k i _ hb => Or.inl hb
  | cons op rest ih =>
    intro k i hi hb
    have hi2 : i < (pulse_apply cfg k op).task_count :=
      Nat.lt_of_lt_of_le hi (pulse_apply_count_mono cfg k op)
    rw [countTicks_cons]
    rcases ih (pulse_apply cfg k op) i hi2 hb with h | h
    · rcases pulse_apply_bit_origin cfg k op i hi h with h2 | h2
      · exact Or.inl h2
      · right; omega
    · right
      have hpe := (pulse_apply_task_bound cfg k op i hi).1
      have hee := (pulse_apply_task_bound cfg k op i hi).2
      rw [hpe] at h
      omega

/-! ## Reachability invariant -/

theorem pulse_inv_init (cfg : PulseConfig) (t : Nat) : PulseInv cfg (pulse_init cfg t) := by
  refine ⟨Nat.zero_le _, fun i hi => absurd (show i < 0 from hi) (by omega), fun i => rfl, ?_, ?_⟩
  · intro i hb
    have : (0 : Nat).testBit i = true := hb
    rw [Nat.zero_testBit] at this
    simp at this
  · intro _ i hb
    have : (0 : Nat).testBit i = true := hb
    rw [Nat.zero_testBit] at this
    simp at this

theorem pulse_inv_add (cfg : PulseConfig) (k : PulseKernel) (st : Int) (p : Nat)
    (f : Option (Int → Int)) (hw : p < 2 ^ 32) (h : PulseInv cfg k) :
    PulseInv cfg (pulse_add_task cfg st p f k).2 := by
  obtain ⟨h1, h2, h3, h4, h5⟩ := h
  by_cases hp : p = 0
  · subst hp
    rw [pulse_add_task_fail_period]
    exact ⟨h1, h2, h3, h4, h5⟩
  cases hgn : (cfg.nullTickGuard && f.isNone) with
  | true =>
    obtain ⟨hg, hn⟩ := Bool.and_eq_true_iff.mp hgn
    rw [Option.isNone_iff_eq_none] at hn
    subst hn
    rw [pulse_add_task_fail_null cfg st p k hp hg]
    exact ⟨h1, h2, h3, h4, h5⟩
  | false =>
    have hf : cfg.nullTickGuard = true → f.isNone = false := by
      intro hg
      rcases Bool.and_eq_false_iff.mp hgn with hg2 | hn
      · rw [hg] at hg2; simp at hg2
      · exact hn
    rcases Nat.lt_or_ge k.task_count cfg.maxTasks with hc | hc
    · rw [pulse_add_task_success cfg st p f k hp hf hc]
      unfold PulseInv
      dsimp only
      refine ⟨by omega, ?_, ?_, ?_, ?_⟩
      · intro i hi
        simp only [updTask]
        rcases eq_or_ne i k.task_count with rfl | hne
        · rw [if_pos rfl]
          exact ⟨show 0 < p by omega, hw⟩
        · rw [if_neg hne]
          exact h2 i (by omega)
      · intro i
        simp only [updTask]
        rcases eq_or_ne i k.task_count with rfl | hne
        · rw [if_pos rfl]
        · rw [if_neg hne]; exact h3 i
      · intro i hb
        split at hb
        · rw [Nat.testBit_or, pulse_task_bit_eq, Nat.testBit_two_pow] at hb
          rcases Bool.or_eq_true_iff.mp hb with hb3 | hb3
          · have := h4 i hb3; omega
          · have := of_decide_eq_true hb3; omega
        · have := h4 i hb; omega
      · intro hs i hb
        simp only [updTask]
        rcases eq_or_ne i k.task_count with rfl | hne
        · rw [if_pos rfl]
          show p ≤ (if cfg.runImmediately = true then p else 0)
          split at hb
          · rename_i hrun
            rw [if_pos hrun]
          · have := h4 _ hb
            omega
        · rw [if_neg hne]
          apply h5 hs i
          split at hb
          · rw [Nat.testBit_or, pulse_task_bit_eq, Nat.testBit_two_pow] at hb
            rcases Bool.or_eq_true_iff.mp hb with hb3 | hb3
            · exact hb3
            · exact absurd (of_decide_eq_true hb3) (Ne.symm hne)
          · exact hb
    · rw [pulse_add_task_fail_capacity cfg st p f k hp hf hc]
      exact ⟨h1, h2, h3, h4, h5⟩

theorem pulse_inv_tick (cfg : PulseConfig) (k : PulseKernel) (h : PulseInv cfg k) :
    PulseInv cfg (pulse_tick_isr cfg k) := by
  obtain ⟨h1, h2, h3, h4, h5⟩ := h
  refine ⟨?_, ?_, ?_, ?_, ?_⟩
  · rw [pulse_tick_isr_count]; exact h1
  · intro i hi
    rw [pulse_tick_isr_count] at hi
    rw [pulse_tick_isr_tasks, if_pos hi, (pulse_tick_task_fields cfg _).2.2.1]
    exact h2 i hi
  · intro i
    rw [pulse_tick_isr_tasks]
    split
    · rw [(pulse_tick_task_fields cfg _).1]; exact h3 i
    · exact h3 i
  · intro i hb
    rw [pulse_tick_isr_count]
    rw [pulse_tick_isr_mask] at hb
    rcases Bool.or_eq_true_iff.mp hb with hb | hb
    · exact h4 i hb
    · exact of_decide_eq_true (Bool.and_eq_true_iff.mp hb).1
  · intro hs i hb
    rw [pulse_tick_isr_mask] at hb
    rw [pulse_tick_isr_tasks]
    rcases Bool.or_eq_true_iff.mp hb with hb | hb
    · have hic := h4 i hb
      rw [if_pos hic, (pulse_tick_task_fields cfg _).2.2.1]
      exact Nat.le_trans (h5 hs i hb) (pulse_tick_task_sat_mono cfg _ hs)
    · obtain ⟨hd1, hd2⟩ := Bool.and_eq_true_iff.mp hb
      have hic := of_decide_eq_true hd1
      have hra := of_decide_eq_true hd2
      rw [if_pos hic]
      exact hra.1

theorem pulse_inv_poll (cfg : PulseConfig) (k : PulseKernel) (h : PulseInv cfg k) :
    PulseInv cfg (pulse_poll cfg k).1 := by
  obtain ⟨h1, h2, h3, h4, h5⟩ := h
  have hm : ∀ j, k.ready_mask.testBit j = true → j < cfg.maxTasks :=
    fun j hj => Nat.lt_of_lt_of_le (h4 j hj) h1
  have hz := pulse_poll_mask_zero cfg k hm
  refine ⟨?_, ?_, ?_, ?_, ?_⟩
  · rw [pulse_poll_count]; exact h1
  · intro i hi
    rw [pulse_poll_count] at hi
    rw [(pulse_poll_task_fields cfg k i).1]
    exact h2 i hi
  · intro i
    cases hb : k.ready_mask.testBit i with
    | false => rw [pulse_poll_untouched cfg k i hb]; exact h3 i
    | true =>
      have hidisp : i ∈ (pulse_poll cfg k).2 := by
        rw [pulse_poll_trace cfg k hm, List.mem_filter]
        exact ⟨List.mem_range.mpr (hm i hb), hb⟩
      rw [(pulse_poll_dispatched cfg k i hidisp).1]
      rfl
  · intro i hb
    rw [hz] at hb
    rw [Nat.zero_testBit] at hb
    simp at hb
  · intro _ i hb
    rw [hz] at hb
    rw [Nat.zero_testBit] at hb
    simp at hb

theorem pulse_inv_run (cfg : PulseConfig) :
    ∀ ops (k : PulseKernel), (∀ op ∈ ops, op.argsWF) → PulseInv cfg k →
      PulseInv cfg (pulse_run cfg k ops) := by
  intro ops
  induction ops with
  | nil => exact fun k _ h => h
  | cons op rest ih =>
    intro k hwf h
    have h1 : PulseInv cfg (pulse_apply cfg k op) := by
      cases op with
      | add st p f =>
        exact pulse_inv_add cfg k st p f (hwf _ (List.mem_cons_self _ _)) h
      | tick => exact pulse_inv_tick cfg k h
      | poll => exact pulse_inv_poll cfg k h
    exact ih (pulse_apply cfg k op) (fun o ho => hwf o (List.mem_cons_of_mem _ ho)) h1

/-! ## Exact tick counting and saturation over runs -/

theorem pulse_run_append (cfg : PulseConfig) (k : PulseKernel) (l l' : List PulseOp) :
    pulse_run cfg k (l ++ l') = pulse_run cfg (pulse_run cfg k l) l' := by
  unfold pulse_run
  rw [List.foldl_append]

theorem pulse_run_cons (cfg : PulseConfig) (k : PulseKernel) (op : PulseOp)
    (l : List PulseOp) :
    pulse_run cfg k (op :: l) = pulse_run cfg (pulse_apply cfg k op) l := rfl

theorem pulse_tick_task_exact (cfg : PulseConfig) (t : PulseTask)
    (h : t.elapsed_ticks < UINT32_MAX) :
    pulse_tick_task cfg t = { t with elapsed_ticks := t.elapsed_ticks + 1 } := by
  have h32 : t.elapsed_ticks + 1 < 2 ^ 32 := by
    have : UINT32_MAX = 2 ^ 32 - 1 := by decide
    omega
  by_cases hs : cfg.saturateElapsed = true
  · unfold pulse_tick_task
    rw [if_pos hs, if_pos h]
  · unfold pulse_tick_task
    rw [if_neg hs, Nat.mod_eq_of_lt h32]

theorem pulse_testBit_small {m B : Nat} (h : m < 2 ^ B) :
    ∀ j, m.testBit j = true → j < B := by
  intro j hj
  by_contra hb
  have hle : (2 : Nat) ^ B ≤ 2 ^ j := Nat.pow_le_pow_right (by omega) (by omega)
  rw [Nat.testBit_lt_two_pow (Nat.lt_of_lt_of_le h hle)] at hj
  simp at hj

/-- Driving `n ≤ P` ticks over a freshly deferred task: the elapsed counter
counts exactly `n` and the ready bit appears exactly at `n = P`. -/
theorem pulse_run_ticks_deferred (cfg : PulseConfig) (k : PulseKernel) (i p : Nat)
    (hp32 : p < 2 ^ 32) (hp0 : 0 < p) (hi : i < k.task_count)
    (he : (k.tasks i).elapsed_ticks = 0) (hr : (k.tasks i).running = 0)
    (hperiod : (k.tasks i).period_ticks = p)
    (hbit : k.ready_mask.testBit i = false) :
    ∀ n, n ≤ p →
      (pulse_run cfg k (List.replicate n PulseOp.tick)).task_count = k.task_count ∧
      ((pulse_run cfg k (List.replicate n PulseOp.tick)).tasks i).elapsed_ticks = n ∧
      ((pulse_run cfg k (List.replicate n PulseOp.tick)).tasks i).running = 0 ∧
      ((pulse_run cfg k (List.replicate n PulseOp.tick)).tasks i).period_ticks = p ∧
      (pulse_run cfg k (List.replicate n PulseOp.tick)).ready_mask.testBit i =
        decide (n = p) := by
  intro n
  induction n with
  | zero =>
    intro _
    refine ⟨rfl, he, hr, hperiod, ?_⟩
    show k.ready_mask.testBit i = decide (0 = p)
    rw [hbit, eq_comm, decide_eq_false_iff_not]
    omega
  | succ n ih =>
    intro hn1
    obtain ⟨ihc, ihe, ihr, ihp, ihb⟩ := ih (by omega)
    have hrw : pulse_run cfg k (List.replicate (n + 1) PulseOp.tick) =
        pulse_tick_isr cfg (pulse_run cfg k (List.replicate n PulseOp.tick)) := by
      rw [List.replicate_succ', pulse_run_append]
      rfl
    set kn := pulse_run cfg k (List.replicate n PulseOp.tick) with hkn
    have hbn : kn.ready_mask.testBit i = false := by
      rw [ihb, decide_eq_false_iff_not]
      omega
    have hin : i < kn.task_count := by omega
    have hmax : (kn.tasks i).elapsed_ticks < UINT32_MAX := by
      rw [ihe]
      have : UINT32_MAX = 2 ^ 32 - 1 := by decide
      omega
    have htt : pulse_tick_task cfg (kn.tasks i) =
        { kn.tasks i with elapsed_ticks := (kn.tasks i).elapsed_ticks + 1 } :=
      pulse_tick_task_exact cfg _ hmax
    have htasks : (pulse_tick_isr cfg kn).tasks i =
        { kn.tasks i with elapsed_ticks := (kn.tasks i).elapsed_ticks + 1 } := by
      rw [pulse_tick_isr_tasks, if_pos hin, htt]
    have hafter : pulse_ready_after cfg (kn.tasks i) ↔ p ≤ n + 1 := by
      unfold pulse_ready_after
      rw [htt]
      dsimp only
      constructor
      · intro hx
        have h1 := hx.1
        omega
      · intro hx
        exact ⟨by omega, ihr⟩
    rw [hrw]
    refine ⟨by rw [pulse_tick_isr_count]; exact ihc, ?_, ?_, ?_, ?_⟩
    · rw [htasks]
      show (kn.tasks i).elapsed_ticks + 1 = n + 1
      omega
    · rw [htasks]
      exact ihr
    · rw [htasks]
      exact ihp
    · rw [pulse_tick_isr_mask, hbn, Bool.false_or, decide_eq_true hin, Bool.true_and]
      rcases Nat.lt_or_ge (n + 1) p with hcase | hcase
      · have hnra : ¬ pulse_ready_after cfg (kn.tasks i) := by
          rw [hafter]; omega
        rw [decide_eq_false hnra, eq_comm, decide_eq_false_iff_not]
        omega
      · have hnp : n + 1 = p := by omega
        rw [decide_eq_true (hafter.mpr (by omega)), eq_comm]
        exact decide_eq_true hnp

/-- Under the saturating policy a counter already at `UINT32_MAX` stays there
over any number of ticks. -/
theorem pulse_run_ticks_sat_max (cfg : PulseConfig) (hs : cfg.saturateElapsed = true) :
    ∀ m (k : PulseKernel) (i : Nat), (k.tasks i).elapsed_ticks = UINT32_MAX →
      ((pulse_run cfg k (List.replicate m PulseOp.tick)).tasks i).elapsed_ticks =
        UINT32_MAX := by
  intro m
  induction m with
  | zero => exact fun k i h => h
  | succ m ih =>
    intro k i h
    rw [List.replicate_succ]
    show ((pulse_run cfg (pulse_tick_isr cfg k) (List.replicate m PulseOp.tick)).tasks i).elapsed_ticks = UINT32_MAX
    apply ih
    rw [pulse_tick_isr_tasks]
    split
    · exact pulse_tick_task_sat_max cfg _ hs h
    · exact h

/-! ## Wrap-policy behaviour over long tick runs -/

theorem pulse_wrap_tick_once (k : PulseKernel)
    (hc : k.task_count = 1) (hm : k.ready_mask.testBit 0 = true)
    (hr : (k.tasks 0).running = 0) (hp : (k.tasks 0).period_ticks = 2) :
    (pulse_tick_isr pulseCfgWrap k).task_count = 1 ∧
      (pulse_tick_isr pulseCfgWrap k).ready_mask.testBit 0 = true ∧
      ((pulse_tick_isr pulseCfgWrap k).tasks 0).elapsed_ticks =
        ((k.tasks 0).elapsed_ticks + 1) % 2 ^ 32 ∧
      ((pulse_tick_isr pulseCfgWrap k).tasks 0).running = 0 ∧
      ((pulse_tick_isr pulseCfgWrap k).tasks 0).period_ticks = 2 := by
  have h01 : (0 : Nat) < k.task_count := by omega
  have htt : pulse_tick_task pulseCfgWrap (k.tasks 0) =
      { k.tasks 0 with elapsed_ticks := ((k.tasks 0).elapsed_ticks + 1) % 2 ^ 32 } := by
    unfold pulse_tick_task
    rw [if_neg (by exact Bool.false_ne_true ∘ id)]
  refine ⟨?_, ?_, ?_, ?_, ?_⟩
  · rw [pulse_tick_isr_count, hc]
  · rw [pulse_tick_isr_mask, hm, Bool.true_or]
  · rw [pulse_tick_isr_tasks, if_pos h01, htt]
  · rw [pulse_tick_isr_tasks, if_pos h01, htt]
    exact hr
  · rw [pulse_tick_isr_tasks, if_pos h01, htt]
    exact hp

theorem pulse_wrap_run_cex (k : PulseKernel) (e0 : Nat)
    (hc : k.task_count = 1) (hm : k.ready_mask.testBit 0 = true)
    (ht0 : (k.tasks 0).elapsed_ticks = e0) (hr : (k.tasks 0).running = 0)
    (hp : (k.tasks 0).period_ticks = 2) (he32 : e0 < 2 ^ 32) :
    ∀ n,
      (pulse_run pulseCfgWrap k (List.replicate n PulseOp.tick)).task_count = 1 ∧
      (pulse_run pulseCfgWrap k (List.replicate n PulseOp.tick)).ready_mask.testBit 0 = true ∧
      ((pulse_run pulseCfgWrap k (List.replicate n PulseOp.tick)).tasks 0).elapsed_ticks =
        (e0 + n) % 2 ^ 32 ∧
      ((pulse_run pulseCfgWrap k (List.replicate n PulseOp.tick)).tasks 0).running = 0 ∧
      ((pulse_run pulseCfgWrap k (List.replicate n PulseOp.tick)).tasks 0).period_ticks = 2 := by
  intro n
  induction n with
  | zero =>
    refine ⟨hc, hm, ?_, hr, hp⟩
    show (k.tasks 0).elapsed_ticks = (e0 + 0) % 2 ^ 32
    rw [ht0, Nat.add_zero, Nat.mod_eq_of_lt he32]
  | succ n ih =>
    obtain ⟨ihc, ihm, ihe, ihr, ihp⟩ := ih
    have hrw : pulse_run pulseCfgWrap k (List.replicate (n + 1) PulseOp.tick) =
        pulse_tick_isr pulseCfgWrap (pulse_run pulseCfgWrap k (List.replicate n PulseOp.tick)) := by
      rw [List.replicate_succ', pulse_run_append]
      rfl
    rw [hrw]
    obtain ⟨o1, o2, o3, o4, o5⟩ :=
      pulse_wrap_tick_once (pulse_run pulseCfgWrap k (List.replicate n PulseOp.tick))
        ihc ihm ihr ihp
    refine ⟨o1, o2, ?_, o4, o5⟩
    rw [o3, ihe]
    have hm32 : (2 : Nat) ^ 32 = 4294967296 := by norm_num
    rw [hm32]
    omega

/-! ## Claim theorems -/

/-- C1 (as stated, counterexample): a second successful registration returns
`0`, not the assigned id `1` (= the pre-call task count).  The hosted tests
assert exactly this `== 0` behaviour, so the code, not the claim, is the
intended behaviour. -/
theorem claim_C1_counterexample :
    (pulse_add_task pulseCfgDefault 0 1 (some fun s => s) pulseC6K).1 = 0 ∧
      (pulse_add_task pulseCfgDefault 0 1 (some fun s => s) pulseC6K).2.task_count = 2 ∧
      pulseC6K.task_count = 1 ∧ (0 : Int) ≠ 1 := by
  refine ⟨?_, ?_, ?_, by norm_num⟩ <;> decide

/-- C1 (amended): every successful `pulse_add_task` call (positive period,
non-null callable when the guard is on, registry not full) returns the
success code `0`; the new task's id — the index of its descriptor — equals
the pre-call task count, where the call stores the given state, period and
callable. -/
theorem claim_C1 (cfg : PulseConfig) (st : Int) (p : Nat) (f : Option (Int → Int))
    (k : PulseKernel) (hp : 0 < p) (hf : cfg.nullTickGuard = true → f.isNone = false)
    (hc : k.task_count < cfg.maxTasks) :
    (pulse_add_task cfg st p f k).1 = 0 ∧
      (pulse_add_task cfg st p f k).2.task_count = k.task_count + 1 ∧
      ((pulse_add_task cfg st p f k).2.tasks k.task_count).period_ticks = p ∧
      ((pulse_add_task cfg st p f k).2.tasks k.task_count).state = st ∧
      ((pulse_add_task cfg st p f k).2.tasks k.task_count).tick = f := by
  rw [pulse_add_task_success cfg st p f k (by omega) hf hc]
  have ht : updTask k.tasks k.task_count
      { running := 0, state := st, period_ticks := p,
        elapsed_ticks := if cfg.runImmediately then p else 0, tick := f } k.task_count =
      { running := 0, state := st, period_ticks := p,
        elapsed_ticks := if cfg.runImmediately then p else 0, tick := f } := by
    simp [updTask]
  exact ⟨rfl, rfl, congrArg PulseTask.period_ticks ht, congrArg PulseTask.state ht,
    congrArg PulseTask.tick ht⟩

/-- C1 witness: concrete successful registration in a fresh kernel. -/
theorem claim_C1_witness :
    (pulse_add_task pulseCfgDefault 0 2 (some fun s => s)
      (pulse_init pulseCfgDefault 1)).1 = 0 ∧
    (pulse_add_task pulseCfgDefault 0 2 (some fun s => s)
      (pulse_init pulseCfgDefault 1)).2.task_count = 1 :=
  have h := claim_C1 pulseCfgDefault 0 2 (some fun s => s) (pulse_init pulseCfgDefault 1)
    (by decide) (fun _ => rfl) (by decide)
  ⟨h.1, h.2.1⟩

/-- C4: `pulse_add_task` validates period, then (if the guard is on) the
callable, then capacity, in that order; failures return `-1`, `-2`, `-3`
respectively and leave the kernel state completely unchanged, success returns
`0`, and the four result codes are pairwise distinct. -/
theorem claim_C4 (cfg : PulseConfig) (st : Int) (p : Nat) (f : Option (Int → Int))
    (k : PulseKernel) :
    (p = 0 → pulse_add_task cfg st p f k = (-1, k)) ∧
    (p ≠ 0 → cfg.nullTickGuard = true → f = none →
      pulse_add_task cfg st p f k = (-2, k)) ∧
    (p ≠ 0 → (cfg.nullTickGuard = true → f.isNone = false) →
      cfg.maxTasks ≤ k.task_count → pulse_add_task cfg st p f k = (-3, k)) ∧
    (p ≠ 0 → (cfg.nullTickGuard = true → f.isNone = false) →
      k.task_count < cfg.maxTasks → (pulse_add_task cfg st p f k).1 = 0) ∧
    ((-1 : Int) ≠ -2 ∧ (-1 : Int) ≠ -3 ∧ (-2 : Int) ≠ -3 ∧
      (0 : Int) ≠ -1 ∧ (0 : Int) ≠ -2 ∧ (0 : Int) ≠ -3) := by
  refine ⟨?_, ?_, ?_, ?_, by norm_num⟩
  · intro hp
    subst hp
    exact pulse_add_task_fail_period cfg st f k
  · intro hp hg hf
    subst hf
    exact pulse_add_task_fail_null cfg st p k hp hg
  · intro hp hf hc
    exact pulse_add_task_fail_capacity cfg st p f k hp hf hc
  · intro hp hf hc
    rw [pulse_add_task_success cfg st p f k hp hf hc]

/-- C4 witness: the zero-period and null-callable failures and one success,
at concrete inputs. -/
theorem claim_C4_witness :
    pulse_add_task pulseCfgDefault 0 0 (some fun s => s) (pulse_init pulseCfgDefault 1) =
      (-1, pulse_init pulseCfgDefault 1) ∧
    pulse_add_task pulseCfgDefault 0 3 none (pulse_init pulseCfgDefault 1) =
      (-2, pulse_init pulseCfgDefault 1) ∧
    (pulse_add_task pulseCfgDefault 0 3 (some fun s => s)
      (pulse_init pulseCfgDefault 1)).1 = 0 :=
  have h1 := claim_C4 pulseCfgDefault 0 0 (some fun s => s) (pulse_init pulseCfgDefault 1)
  have h2 := claim_C4 pulseCfgDefault 0 3 none (pulse_init pulseCfgDefault 1)
  have h3 := claim_C4 pulseCfgDefault 0 3 (some fun s => s) (pulse_init pulseCfgDefault 1)
  ⟨h1.1 rfl, h2.2.1 (by decide) rfl rfl, h3.2.2.2.1 (by decide) (fun _ => rfl) (by decide)⟩

/-- C5: Scenario A — in a fresh immediate-ready kernel register task X
(id 0, period 2) then task Y (id 1, period 3) and drive six tick-then-poll
rounds; the execution trace, as `(tick, task id)` pairs, is exactly
`(1,X), (1,Y), (3,X), (4,Y), (5,X)`: five executions, in that order. -/
theorem claim_C5 :
    (pulse_drive pulseCfgDefault 6
      (pulse_add_task pulseCfgDefault 0 3 (some fun s => s)
        (pulse_add_task pulseCfgDefault 0 2 (some fun s => s)
          (pulse_init pulseCfgDefault 1)).2).2).2 =
      [(1, 0), (1, 1), (3, 0), (4, 1), (5, 0)] := by
  decide

/-- C9: `pulse_init` zeroes the task count, the ready mask and the started
flag, and stores `max t 1` as the tick period in milliseconds, which
`pulse_tick_period_ms` then returns; in particular `pulse_init 0` stores 1. -/
theorem claim_C9 (cfg : PulseConfig) (t : Nat) :
    (pulse_init cfg t).task_count = 0 ∧
    (pulse_init cfg t).ready_mask = 0 ∧
    (pulse_init cfg t).started = 0 ∧
    pulse_tick_period_ms (pulse_init cfg t) = max t 1 ∧
    pulse_tick_period_ms (pulse_init cfg 0) = 1 := by
  refine ⟨rfl, rfl, rfl, ?_, rfl⟩
  show (if t = 0 then 1 else t) = max t 1
  rcases Nat.eq_zero_or_pos t with rfl | h
  · rfl
  · rw [if_neg (by omega)]
    omega

/-- C10: in every kernel state reachable from an initialized kernel by a
sequence of well-formed register, tick and poll operations, every set
ready-mask bit has an index strictly below the registered task count. -/
theorem claim_C10 (cfg : PulseConfig) (t : Nat) (ops : List PulseOp) (i : Nat)
    (hwf : ∀ op ∈ ops, op.argsWF)
    (hb : (pulse_run cfg (pulse_init cfg t) ops).ready_mask.testBit i = true) :
    i < (pulse_run cfg (pulse_init cfg t) ops).task_count :=
  (pulse_inv_run cfg ops (pulse_init cfg t) hwf (pulse_inv_init cfg t)).2.2.2.1 i hb

/-- C10 witness: after registering one task, bit 0 is set and indeed lies
below the task count. -/
theorem claim_C10_witness :
    (0 : Nat) <
      (pulse_run pulseCfgDefault (pulse_init pulseCfgDefault 1)
        [PulseOp.add 0 2 (some fun s => s)]).task_count :=
  claim_C10 pulseCfgDefault 1 [PulseOp.add 0 2 (some fun s => s)] 0
    (by
      intro op hop
      rcases List.mem_singleton.mp hop with rfl
      show (2 : Nat) < 2 ^ 32
      norm_num)
    (by decide)

/-- C2: when every set ready bit lies below the capacity (true of all
reachable states), a single `pulse_poll` dispatches exactly the tasks whose
ready bit was set when the call began — its trace is the ascending
enumeration of those set bits, so each is dispatched exactly once, in
strictly ascending id order — and for each dispatched task the callable is
applied to the stored state, the returned value is stored back, and the
elapsed counter is reset. -/
theorem claim_C2 (cfg : PulseConfig) (s : PulseKernel)
    (hm : ∀ j, s.ready_mask.testBit j = true → j < cfg.maxTasks) :
    (pulse_poll cfg s).2 =
      (List.range cfg.maxTasks).filter (fun j => s.ready_mask.testBit j) ∧
    (pulse_poll cfg s).2.Pairwise (· < ·) ∧
    (∀ i g, s.ready_mask.testBit i = true → (s.tasks i).tick = some g →
      ((pulse_poll cfg s).1.tasks i).state = g ((s.tasks i).state) ∧
      ((pulse_poll cfg s).1.tasks i).elapsed_ticks = 0) := by
  have ht := pulse_poll_trace cfg s hm
  refine ⟨ht, ?_, ?_⟩
  · rw [ht]
    exact (List.pairwise_lt_range cfg.maxTasks).filter _
  · intro i g hb hg
    have hmem : i ∈ (pulse_poll cfg s).2 := by
      rw [ht, List.mem_filter]
      exact ⟨List.mem_range.mpr (hm i hb), hb⟩
    have hd := (pulse_poll_dispatched cfg s i hmem).1
    rw [hd]
    constructor
    · show (match (s.tasks i).tick with
        | some f => f (s.tasks i).state
        | none => (s.tasks i).state) = g ((s.tasks i).state)
      rw [hg]
    · rfl

/-- C2 witness: polling a concrete kernel with bits 0 and 2 set dispatches
exactly `[0, 2]` and stores each callable's result back. -/
theorem claim_C2_witness :
    (pulse_poll pulseCfgDefault pulseC2K).2 = [0, 2] ∧
      ((pulse_poll pulseCfgDefault pulseC2K).1.tasks 0).state = 11 ∧
      ((pulse_poll pulseCfgDefault pulseC2K).1.tasks 2).state = 40 := by
  have h := claim_C2 pulseCfgDefault pulseC2K (pulse_testBit_small (by decide))
  refine ⟨?_, ?_, ?_⟩
  · rw [h.1]
    decide
  · rw [(h.2.2 0 (fun s => s + 1) (by decide) rfl).1]
    decide
  · rw [(h.2.2 2 (fun s => s * 2) (by decide) rfl).1]
    decide

/-- C3 (as stated, counterexample): under the wrapping (non-saturating)
configuration, registering a period-2 task (immediately ready) and then
ticking `2 ^ 32 - 2` times without polling wraps its elapsed counter to 0
while its ready bit is still set, so a reachable state has a set ready bit
whose task has elapsed < period. -/
theorem claim_C3_counterexample :
    (pulse_run pulseCfgWrap (pulse_init pulseCfgWrap 1) pulseC3CexOps).ready_mask.testBit 0 =
      true ∧
    ((pulse_run pulseCfgWrap (pulse_init pulseCfgWrap 1) pulseC3CexOps).tasks 0).running = 0 ∧
    ((pulse_run pulseCfgWrap (pulse_init pulseCfgWrap 1) pulseC3CexOps).tasks 0).elapsed_ticks <
      ((pulse_run pulseCfgWrap (pulse_init pulseCfgWrap 1) pulseC3CexOps).tasks 0).period_ticks := by
  have hrun : pulse_run pulseCfgWrap (pulse_init pulseCfgWrap 1) pulseC3CexOps =
      pulse_run pulseCfgWrap pulseC3K1 (List.replicate (2 ^ 32 - 2) PulseOp.tick) :=
    pulse_run_cons pulseCfgWrap (pulse_init pulseCfgWrap 1) (PulseOp.add 0 2 (some fun s => s))
      (List.replicate (2 ^ 32 - 2) PulseOp.tick)
  obtain ⟨o1, o2, o3, o4, o5⟩ := pulse_wrap_run_cex pulseC3K1 2 rfl (by decide) rfl rfl rfl
    (by norm_num) (2 ^ 32 - 2)
  rw [hrun]
  refine ⟨o2, o4, ?_⟩
  rw [o3, o5]
  norm_num

/-- C3 (amended): in every kernel state reachable from an initialized kernel
by well-formed register, tick and poll operations, every set ready bit
belongs to a task whose running flag is 0; under the saturating elapsed
policy its elapsed counter is moreover at least its period.  (Under the
wrapping policy the elapsed half can fail after a counter overflow, see the
counterexample.) -/
theorem claim_C3 (cfg : PulseConfig) (t : Nat) (ops : List PulseOp) (i : Nat)
    (hwf : ∀ op ∈ ops, op.argsWF)
    (hb : (pulse_run cfg (pulse_init cfg t) ops).ready_mask.testBit i = true) :
    ((pulse_run cfg (pulse_init cfg t) ops).tasks i).running = 0 ∧
      (cfg.saturateElapsed = true →
        ((pulse_run cfg (pulse_init cfg t) ops).tasks i).period_ticks ≤
          ((pulse_run cfg (pulse_init cfg t) ops).tasks i).elapsed_ticks) := by
  have h := pulse_inv_run cfg ops (pulse_init cfg t) hwf (pulse_inv_init cfg t)
  exact ⟨h.2.2.1 i, fun hs => h.2.2.2.2 hs i hb⟩

/-- C3 witness: after one registration under the saturating default
configuration, the ready task 0 is not running and has elapsed at least its
period. -/
theorem claim_C3_witness :
    ((pulse_run pulseCfgDefault (pulse_init pulseCfgDefault 1)
      [PulseOp.add 0 2 (some fun s => s)]).tasks 0).running = 0 ∧
    ((pulse_run pulseCfgDefault (pulse_init pulseCfgDefault 1)
      [PulseOp.add 0 2 (some fun s => s)]).tasks 0).period_ticks ≤
      ((pulse_run pulseCfgDefault (pulse_init pulseCfgDefault 1)
        [PulseOp.add 0 2 (some fun s => s)]).tasks 0).elapsed_ticks :=
  have h := claim_C3 pulseCfgDefault 1 [PulseOp.add 0 2 (some fun s => s)] 0
    (by
      intro op hop
      rcases List.mem_singleton.mp hop with rfl
      show (2 : Nat) < 2 ^ 32
      norm_num)
    (by decide)
  ⟨h.1, h.2 rfl⟩

/-- C6: once `pulse_poll` dispatches a registered task (resetting its elapsed
counter at dispatch), its ready bit stays clear through any subsequent
operation sequence containing fewer than `period` ticks. -/
theorem claim_C6 (cfg : PulseConfig) (s0 : PulseKernel) (i : Nat) (ops : List PulseOp)
    (hi : i < s0.task_count) (hdisp : i ∈ (pulse_poll cfg s0).2)
    (hticks : countTicks ops < (s0.tasks i).period_ticks) :
    (pulse_run cfg (pulse_poll cfg s0).1 ops).ready_mask.testBit i = false := by
  obtain ⟨htask, hbit⟩ := pulse_poll_dispatched cfg s0 i hdisp
  have hcount : i < (pulse_poll cfg s0).1.task_count := by
    rw [pulse_poll_count]
    omega
  have helapsed : ((pulse_poll cfg s0).1.tasks i).elapsed_ticks = 0 := by
    rw [htask]
    rfl
  have hperiod : ((pulse_poll cfg s0).1.tasks i).period_ticks =
      (s0.tasks i).period_ticks := by
    rw [htask]
    rfl
  cases hfin : (pulse_run cfg (pulse_poll cfg s0).1 ops).ready_mask.testBit i with
  | false => rfl
  | true =>
    rcases pulse_run_bit_origin cfg ops (pulse_poll cfg s0).1 i hcount hfin with h | h
    · rw [h] at hbit
      exact hbit
    · rw [hperiod, helapsed] at h
      exact absurd h (by omega)

/-- C6 witness: dispatch the period-2 task of a concrete kernel, then one
tick; the ready bit is still clear. -/
theorem claim_C6_witness :
    (pulse_run pulseCfgDefault (pulse_poll pulseCfgDefault pulseC6K).1
      [PulseOp.tick]).ready_mask.testBit 0 = false :=
  claim_C6 pulseCfgDefault pulseC6K 0 [PulseOp.tick] (by decide) (by decide) (by decide)

/-- C7: a task registered successfully under the immediate-ready policy has
its ready bit set at registration time, before any tick, with its elapsed
counter initialized to its period; under the deferred policy its elapsed
counter starts at 0 and its ready bit stays clear until a full period of
ticks is bookkept — and appears exactly at the period-th tick. -/
theorem claim_C7 (cfg : PulseConfig) (st : Int) (p : Nat) (f : Option (Int → Int))
    (k : PulseKernel) (hp : 0 < p) (hp32 : p < 2 ^ 32)
    (hf : cfg.nullTickGuard = true → f.isNone = false)
    (hc : k.task_count < cfg.maxTasks)
    (hbit : k.ready_mask.testBit k.task_count = false) :
    (cfg.runImmediately = true →
      (pulse_add_task cfg st p f k).2.ready_mask.testBit k.task_count = true ∧
      ((pulse_add_task cfg st p f k).2.tasks k.task_count).elapsed_ticks = p) ∧
    (cfg.runImmediately = false →
      ((pulse_add_task cfg st p f k).2.tasks k.task_count).elapsed_ticks = 0 ∧
      (pulse_add_task cfg st p f k).2.ready_mask.testBit k.task_count = false ∧
      (∀ n, n < p →
        (pulse_run cfg (pulse_add_task cfg st p f k).2
          (List.replicate n PulseOp.tick)).ready_mask.testBit k.task_count = false) ∧
      (pulse_run cfg (pulse_add_task cfg st p f k).2
        (List.replicate p PulseOp.tick)).ready_mask.testBit k.task_count = true) := by
  rw [pulse_add_task_success cfg st p f k (by omega) hf hc]
  have htasks : ∀ e,
      updTask k.tasks k.task_count
        { running := 0, state := st, period_ticks := p, elapsed_ticks := e,
          tick := f } k.task_count =
        { running := 0, state := st, period_ticks := p, elapsed_ticks := e,
          tick := f } := by
    intro e
    simp [updTask]
  constructor
  · intro hrun
    constructor
    · show (if cfg.runImmediately = true
          then k.ready_mask ||| pulse_task_bit k.task_count
          else k.ready_mask).testBit k.task_count = true
      rw [if_pos hrun, Nat.testBit_or, pulse_task_bit_eq, Nat.testBit_two_pow,
        decide_eq_true rfl, Bool.or_true]
    · show (updTask k.tasks k.task_count
        { running := 0, state := st, period_ticks := p,
          elapsed_ticks := if cfg.runImmediately = true then p else 0,
          tick := f } k.task_count).elapsed_ticks = p
      rw [htasks, if_pos hrun]
  · intro hrun
    have hre : (if cfg.runImmediately = true then p else 0) = 0 := by
      rw [hrun]
      rfl
    have hmask : (if cfg.runImmediately = true
        then k.ready_mask ||| pulse_task_bit k.task_count
        else k.ready_mask) = k.ready_mask := by
      rw [hrun]
      rfl
    set k2 : PulseKernel :=
      { k with
        tasks := updTask k.tasks k.task_count
          { running := 0, state := st, period_ticks := p,
            elapsed_ticks := if cfg.runImmediately = true then p else 0, tick := f }
        ready_mask := if cfg.runImmediately = true
                      then k.ready_mask ||| pulse_task_bit k.task_count
                      else k.ready_mask
        task_count := k.task_count + 1 } with hk2
    have ht2 : k2.tasks k.task_count =
        { running := 0, state := st, period_ticks := p,
          elapsed_ticks := if cfg.runImmediately = true then p else 0, tick := f } := by
      rw [hk2]
      exact htasks _
    have hm2 : k2.ready_mask = k.ready_mask := by
      rw [hk2]
      exact hmask
    have hdef := pulse_run_ticks_deferred cfg k2 k.task_count p hp32 hp
      (by show k.task_count < k.task_count + 1; omega)
      (by rw [ht2, hre])
      (by rw [ht2])
      (by rw [ht2])
      (by rw [hm2]; exact hbit)
    refine ⟨by rw [ht2, hre], by rw [hm2]; exact hbit, ?_, ?_⟩
    · intro n hn
      have h := (hdef n (by omega)).2.2.2.2
      rw [h, decide_eq_false_iff_not]
      omega
    · have h := (hdef p (Nat.le_refl p)).2.2.2.2
      rw [h]
      exact decide_eq_true rfl

/-- C7 witness: immediate-ready registration sets bit 0 at once; deferred
registration of a period-2 task leaves it clear after one tick and sets it
after two. -/
theorem claim_C7_witness :
    (pulse_add_task pulseCfgDefault 0 2 (some fun s => s)
      (pulse_init pulseCfgDefault 1)).2.ready_mask.testBit 0 = true ∧
    ((pulse_add_task pulseCfgDeferred 0 2 (some fun s => s)
      (pulse_init pulseCfgDeferred 1)).2.tasks 0).elapsed_ticks = 0 ∧
    (pulse_run pulseCfgDeferred
      (pulse_add_task pulseCfgDeferred 0 2 (some fun s => s)
        (pulse_init pulseCfgDeferred 1)).2
      (List.replicate 1 PulseOp.tick)).ready_mask.testBit 0 = false ∧
    (pulse_run pulseCfgDeferred
      (pulse_add_task pulseCfgDeferred 0 2 (some fun s => s)
        (pulse_init pulseCfgDeferred 1)).2
      (List.replicate 2 PulseOp.tick)).ready_mask.testBit 0 = true :=
  have h1 := claim_C7 pulseCfgDefault 0 2 (some fun s => s) (pulse_init pulseCfgDefault 1)
    (by decide) (by norm_num) (fun _ => rfl) (by decide) (by decide)
  have h2 := claim_C7 pulseCfgDeferred 0 2 (some fun s => s) (pulse_init pulseCfgDeferred 1)
    (by decide) (by norm_num) (fun _ => rfl) (by decide) (by decide)
  ⟨(h1.1 rfl).1, (h2.2 rfl).1, (h2.2 rfl).2.2.1 1 (by omega), (h2.2 rfl).2.2.2⟩

/-- C8 (as stated, counterexample): under the wrapping (non-saturating)
configuration one tick takes an elapsed counter from `UINT32_MAX` to 0, i.e.
`pulse_tick_isr` can decrease a registered task's elapsed counter. -/
theorem claim_C8_counterexample :
    (pulseC8K.tasks 0).elapsed_ticks = UINT32_MAX ∧
    ((pulse_tick_isr pulseCfgWrap pulseC8K).tasks 0).elapsed_ticks = 0 ∧
    (0 : Nat) < UINT32_MAX := by
  refine ⟨rfl, ?_, by decide⟩
  decide

/-- C8 (amended): under the saturating policy a tick never decreases any
task's elapsed counter, and a counter that has reached `UINT32_MAX` stays
exactly there over any number of further ticks.  (Under the wrapping policy
the counter wraps past `UINT32_MAX`, see the counterexample.) -/
theorem claim_C8 (cfg : PulseConfig) (k : PulseKernel) (i m : Nat)
    (hs : cfg.saturateElapsed = true) :
    (k.tasks i).elapsed_ticks ≤ ((pulse_tick_isr cfg k).tasks i).elapsed_ticks ∧
    ((k.tasks i).elapsed_ticks = UINT32_MAX →
      ((pulse_run cfg k (List.replicate m PulseOp.tick)).tasks i).elapsed_ticks =
        UINT32_MAX) := by
  constructor
  · rw [pulse_tick_isr_tasks]
    split
    · exact pulse_tick_task_sat_mono cfg _ hs
    · exact Nat.le_refl _
  · exact fun h => pulse_run_ticks_sat_max cfg hs m k i h

/-- C8 witness: the saturated kernel stays at `UINT32_MAX` under the default
(saturating) configuration. -/
theorem claim_C8_witness :
    (pulseC8K.tasks 0).elapsed_ticks ≤
      ((pulse_tick_isr pulseCfgDefault pulseC8K).tasks 0).elapsed_ticks ∧
    ((pulse_run pulseCfgDefault pulseC8K (List.replicate 3 PulseOp.tick)).tasks 0).elapsed_ticks =
      UINT32_MAX :=
  have h := claim_C8 pulseCfgDefault pulseC8K 0 3 rfl
  ⟨h.1, h.2 rfl⟩
